import Mathlib

/-!
Verification of the OrchidRPC server/client core: a shallow embedding of the
procedure-execution engine (two variants of `RPC.execute` as given in
packages/server/README.md), the protobuf transport adapter
(packages/server/src/http.ts) and the protobuf client
(packages/client/src/index.ts), together with theorems settling the spec's
claims about validation, middleware ordering, context merging, routing and
error translation.

JavaScript values flowing through the system are modelled by `JVal`
(JSON-representable values; numbers are modelled as integers, which covers
every value the claims mention).  `JSON.stringify` / `JSON.parse` are
runtime builtins, modelled here by `jsonStringify` / `jsonParse` (the parser
accepts integer numerals, strings with simple escapes, booleans, null,
arrays and objects, and rejects trailing garbage, like the builtin).
Protobuf encode/decode is modelled at the message-object level: decoding
with `\x7bdefaults: true\x7d` always yields string fields, absent wire
fields becoming `""`.
-/

namespace OrchidRpc

/-- JSON-representable JavaScript values. -/
inductive JVal where
  | null
  | bool (b : Bool)
  | num (n : Int)
  | str (s : String)
  | arr (elems : List JVal)
  | obj (fields : List (String × JVal))

/-- JavaScript truthiness test (`!v`): `null`, `false`, `0` and `""` are
falsy; arrays and objects (even empty ones) are truthy.  `undefined` is
handled separately via `Option` where it can occur. -/
def jsFalsy : JVal → Bool
  | .null => true
  | .bool b => !b
  | .num n => n == 0
  | .str s => s == ""
  | .arr _ => false
  | .obj _ => false

/-- Escape one character for a JSON string literal. -/
def escapeChar (c : Char) : String :=
  if c = '"' then "\\\"" else if c = '\\' then "\\\\" else String.singleton c

/-- Escape a character list for a JSON string literal. -/
def escapeList : List Char → String
  | [] => ""
  | c :: t => escapeChar c ++ escapeList t

/-- Escape a string for inclusion in a JSON document. -/
def escapeJson (s : String) : String := escapeList s.toList

mutual

/-- Model of the `JSON.stringify` builtin on `JVal`. -/
def jsonStringify : JVal → String
  | JVal.null => "null"
  | JVal.bool b => cond b "true" "false"
  | JVal.num n => toString n
  | JVal.str s => "\"" ++ escapeJson s ++ "\""
  | JVal.arr xs => "[" ++ stringifyElems xs ++ "]"
  | JVal.obj fs => "\x7b" ++ stringifyProps fs ++ "\x7d"

/-- Comma-separated stringification of array elements. -/
def stringifyElems : List JVal → String
  | [] => ""
  | [x] => jsonStringify x
  | x :: y :: t => jsonStringify x ++ "," ++ stringifyElems (y :: t)

/-- Comma-separated stringification of object properties. -/
def stringifyProps : List (String × JVal) → String
  | [] => ""
  | [(k, v)] => "\"" ++ escapeJson k ++ "\":" ++ jsonStringify v
  | (k, v) :: q :: t =>
      "\"" ++ escapeJson k ++ "\":" ++ jsonStringify v ++ "," ++ stringifyProps (q :: t)

end

/-- Drop leading JSON whitespace. -/
def skipWs : List Char → List Char
  | c :: t => if c = ' ' ∨ c = '\n' ∨ c = '\t' ∨ c = '\r' then skipWs t else c :: t
  | [] => []

/-- Decode a backslash escape inside a JSON string literal. -/
def escDecode (c : Char) : Char :=
  if c = 'n' then '\n' else if c = 't' then '\t' else c

/-- Parse the body of a JSON string literal (after the opening quote),
returning the decoded string and the remaining input. -/
def parseStrBody : List Char → Option (String × List Char)
  | [] => none
  | '"' :: t => some ("", t)
  | '\\' :: c :: t =>
      (parseStrBody t).map (fun r => (String.singleton (escDecode c) ++ r.1, r.2))
  | c :: t => (parseStrBody t).map (fun r => (String.singleton c ++ r.1, r.2))

/-- Accumulate a run of decimal digits. -/
def digitsAux (acc : Nat) : List Char → Nat × List Char
  | c :: t => if c.isDigit then digitsAux (acc * 10 + (c.toNat - 48)) t else (acc, c :: t)
  | [] => (acc, [])

mutual

/-- Fuel-indexed recursive-descent JSON value parser. -/
def parseVal : Nat → List Char → Option (JVal × List Char)
  | 0, _ => none
  | Nat.succ fuel, cs =>
    match skipWs cs with
    | [] => none
    | '"' :: t => (parseStrBody t).map (fun r => (JVal.str r.1, r.2))
    | 't' :: 'r' :: 'u' :: 'e' :: t => some (JVal.bool true, t)
    | 'f' :: 'a' :: 'l' :: 's' :: 'e' :: t => some (JVal.bool false, t)
    | 'n' :: 'u' :: 'l' :: 'l' :: t => some (JVal.null, t)
    | '-' :: c :: t =>
        if c.isDigit then
          let r := digitsAux (c.toNat - 48) t
          some (JVal.num (-(r.1 : Int)), r.2)
        else none
    | '[' :: t =>
        match skipWs t with
        | ']' :: t2 => some (JVal.arr [], t2)
        | t2 => parseElems fuel t2 []
    | '\x7b' :: t =>
        match skipWs t with
        | '\x7d' :: t2 => some (JVal.obj [], t2)
        | t2 => parseFields fuel t2 []
    | c :: t =>
        if c.isDigit then
          let r := digitsAux (c.toNat - 48) t
          some (JVal.num (r.1 : Int), r.2)
        else none

/-- Parse the remaining elements of a JSON array. -/
def parseElems : Nat → List Char → List JVal → Option (JVal × List Char)
  | 0, _, _ => none
  | Nat.succ fuel, cs, acc =>
    match parseVal fuel cs with
    | none => none
    | some (v, rest) =>
      match skipWs rest with
      | ',' :: t => parseElems fuel t (acc ++ [v])
      | ']' :: t => some (JVal.arr (acc ++ [v]), t)
      | _ => none

/-- Parse the remaining key/value fields of a JSON object. -/
def parseFields : Nat → List Char → List (String × JVal) → Option (JVal × List Char)
  | 0, _, _ => none
  | Nat.succ fuel, cs, acc =>
    match skipWs cs with
    | '"' :: t =>
      match parseStrBody t with
      | none => none
      | some (k, rest) =>
        match skipWs rest with
        | ':' :: t2 =>
          match parseVal fuel t2 with
          | none => none
          | some (v, rest2) =>
            match skipWs rest2 with
            | ',' :: t3 => parseFields fuel t3 (acc ++ [(k, v)])
            | '\x7d' :: t3 => some (JVal.obj (acc ++ [(k, v)]), t3)
            | _ => none
        | _ => none
    | _ => none

end

/-- Model of the `JSON.parse` builtin: `none` means the builtin throws. -/
def jsonParse (s : String) : Option JVal :=
  let cs := s.toList
  match parseVal (cs.length + 1) cs with
  | some (v, rest) => if (skipWs rest).isEmpty then some v else none
  | none => none

/-- Does the needle occur at the head of the haystack? -/
def leadMatch : List Char → List Char → Bool
  | [], _ => true
  | _ :: _, [] => false
  | a :: na, b :: hb => a = b && leadMatch na hb

/-- Does the needle occur anywhere in the haystack? -/
def listHasSub (needle : List Char) : List Char → Bool
  | [] => needle.isEmpty
  | c :: t => leadMatch needle (c :: t) || listHasSub needle t

/-- Model of JavaScript `haystack.includes(needle)`. -/
def strHasSub (hay needle : String) : Bool := listHasSub needle.toList hay.toList

/-- Opaque per-call request/response handles (the `IncomingMessage` /
`ServerResponse` pair); only their identity matters to the model. -/
structure Handles where
  reqTag : Nat := 0
  respTag : Nat := 0

/-- A context value: either a JSON-representable value or one of the two
call handles (variant-2 `execute` stores `request` / `response` in the
context). -/
inductive CVal where
  | j (v : JVal)
  | reqHandle
  | respHandle

/-- A JavaScript object holding context entries, as a key-ordered
association list. -/
abbrev Ctx := List (String × CVal)

/-- First-defined choice between two optional values (the lookup semantics
of a JavaScript spread-merge: the left option is consulted first). -/
def pick {α : Type} (x y : Option α) : Option α :=
  match x with
  | some v => some v
  | none => y

/-- Model of the JavaScript object spread `\x7b...a, ...b\x7d`: `a`'s keys in
order with `b`'s values where keys collide, then `b`'s keys not in `a`. -/
def mergeObj (a b : Ctx) : Ctx :=
  a.map (fun p => match List.lookup p.1 b with | some v => (p.1, v) | none => p)
    ++ b.filter (fun q => (List.lookup q.1 a).isNone)

/-- `RPC.mergeContexts` (packages/server/README.md lines 183-192):
`requestContext = typeof contextFn === 'function' ? (contextFn(request, response) || \x7b\x7d) : \x7b\x7d`
followed by `\x7b ...globalContext, ...requestContext \x7d`.  The derivation
function is `Option`-typed to model the `typeof` check, and returns an
`Option Ctx` to model the `|| \x7b\x7d` guard against `undefined`. -/
def RPC.mergeContexts (globalContext : Ctx) (contextFn : Option (Handles → Option Ctx))
    (h : Handles) : Ctx :=
  let requestContext : Ctx :=
    match contextFn with
    | some f => (f h).getD []
    | none => []
  mergeObj globalContext requestContext

/-- The options record passed to middleware and handlers
(`ProcedureOptions`): validated input, merged context, call handles. -/
structure Opts where
  input : JVal
  context : Ctx
  handles : Handles

/-- A middleware entry, restricted to the contract §4.4 step 3 describes:
it either returns its own value without calling `next()` (`stop`; the
returned `Except` models a thrown exception as `.error`), or calls
`next()` exactly once and produces its result from `next()`'s value
(`wrap`; an exception from `next()` propagates through the `await`). -/
inductive Mw where
  | stop (f : Opts → Except String JVal)
  | wrap (f : Opts → JVal → Except String JVal)

/-- A pass-through middleware: calls `next()` and returns its value. -/
def Mw.pass : Mw := .wrap (fun _ r => .ok r)

/-- Observable chain events: middleware entry `i` ran / the terminal
handler ran. -/
inductive Ev where
  | mw (i : Nat)
  | handlerRun
deriving DecidableEq

/-- The engine's middleware driver (`execute`, both README variants):
`index` starts at `i`; `next()` runs `middleware[index++]` or, when the
list is exhausted, the terminal handler.  Returns the event trace and the
call's result. -/
def runChainFrom (h : Opts → Except String JVal) (opts : Opts) :
    List Mw → Nat → List Ev × Except String JVal
  | [], _ => ([Ev.handlerRun], h opts)
  | Mw.stop f :: _, i => ([Ev.mw i], f opts)
  | Mw.wrap f :: rest, i =>
    let r := runChainFrom h opts rest (i + 1)
    (Ev.mw i :: r.1, match r.2 with | .ok v => f opts v | .error e => .error e)

/-- The middleware chain as started by `execute`: index cursor at 0. -/
def runChain (mws : List Mw) (h : Opts → Except String JVal) (opts : Opts) :
    List Ev × Except String JVal :=
  runChainFrom h opts mws 0

/-- A `Procedure`: optional validator, terminal handler, middleware list.
A thrown JavaScript exception is modelled as `Except.error` carrying the
exception's message. -/
structure Procedure where
  validateInput : Option (JVal → Except String JVal)
  handler : Opts → Except String JVal
  middleware : List Mw

/-- Builder path `rpc.procedure().input(validate).use(handler)`: validator
attached, empty middleware list.  (The `next` continuation the builder
hands the terminal handler resolves to `undefined` and is not consulted by
any handler in the claims, so the handler is passed through unchanged.) -/
def RPC.procedureInputUse (validate : JVal → Except String JVal)
    (h : Opts → Except String JVal) : Procedure :=
  { validateInput := some validate, handler := h, middleware := [] }

/-- Builder path `rpc.procedure().use(handler)`: no validator, empty
middleware list. -/
def RPC.procedureUse (h : Opts → Except String JVal) : Procedure :=
  { validateInput := none, handler := h, middleware := [] }

/-- `RPC.router` (README lines 495-497 and 302-304): the identity on the
procedure map. -/
def RPC.router (procedures : List (String × Procedure)) : List (String × Procedure) :=
  procedures

/-- The member names a plain JavaScript object literal (such as the router
returned by `rpc.router(\x7b...\x7d)`) inherits from `Object.prototype`. -/
def objectProtoKeys : List String :=
  ["constructor", "hasOwnProperty", "isPrototypeOf", "propertyIsEnumerable",
   "toLocaleString", "toString", "valueOf", "__defineGetter__", "__defineSetter__",
   "__lookupGetter__", "__lookupSetter__", "__proto__"]

/-- The result of the JavaScript property access `appRouter[name]`:
a registered Procedure (own key), a truthy non-Procedure value inherited
from `Object.prototype` (e.g. `Object.prototype.toString`), or
`undefined`. -/
inductive RouterHit where
  | proc (p : Procedure)
  | inherited (name : String)
  | missing

/-- `appRouter[body.procedure]` (http.ts line 94): own keys first, then the
prototype chain — an unregistered name that matches an inherited
`Object.prototype` member yields that member (truthy), not `undefined`. -/
def routerGet (appRouter : List (String × Procedure)) (name : String) : RouterHit :=
  match List.lookup name appRouter with
  | some p => .proc p
  | none => if name ∈ objectProtoKeys then .inherited name else .missing

/-- The validation stage of `execute` (both variants):
`procedure.validateInput ? procedure.validateInput(input) : input`. -/
def validateStage (p : Procedure) (input : JVal) : Except String JVal :=
  match p.validateInput with
  | some vf => vf input
  | none => .ok input

/-- A response body: either a raw text body or an encoded `RpcResponse`
protobuf envelope.  The envelope is modelled at the message level; a field
omitted at `create` time decodes (with defaults) as `""`. -/
inductive RespBody where
  | raw (s : String)
  | pb (result : String) (error : String)

/-- One write of a response body (`res.end`), with the status code and
content-type header in force at that moment.  The first `Send` on a Node
response stream is what the client observes; any later one is a
write-after-end. -/
structure Send where
  status : Nat
  contentType : Option String
  body : RespBody

/-- `RPC.sendErrorResponse` (README lines 291-295, variant 1): status code,
`Content-Type: application/json`, body `JSON.stringify(\x7berror: message, details\x7d)`. -/
def sendErrorResponse (status : Nat) (message : String) (details : String) : Send :=
  ⟨status, some "application/json",
    .raw (jsonStringify (.obj [("error", .str message), ("details", .str details)]))⟩

/-- Outcome of variant-1 `execute`: a resolved value (`none` = the
`undefined` of the validation-failure `return`) or a (re)thrown exception. -/
inductive Outcome1 where
  | ret (v : Option JVal)
  | thrown (e : String)

/-- Observable behaviour of variant-1 `execute`: responses it wrote itself,
the chain trace, and its outcome. -/
structure ExecOut1 where
  sends : List Send
  trace : List Ev
  outcome : Outcome1

/-- Variant-1 `RPC.execute` (README lines 246-281): validation failures are
caught, answered with a 400 JSON response by the engine itself, and turn
into a plain `return` (outcome `undefined`); chain exceptions are answered
with a 500 JSON response by the engine and then re-thrown.  The context is
`mergeContexts(request, response, () => this.globalContext)`. -/
def Core1.execute (glob : Ctx) (p : Procedure) (input : JVal) (hs : Handles) : ExecOut1 :=
  match validateStage p input with
  | .error msg => ⟨[sendErrorResponse 400 "Invalid input" msg], [], .ret none⟩
  | .ok vi =>
    let context := RPC.mergeContexts glob (some (fun _ => some glob)) hs
    let r := runChain p.middleware p.handler ⟨vi, context, hs⟩
    match r.2 with
    | .ok v => ⟨[], r.1, .ret (some v)⟩
    | .error e => ⟨[sendErrorResponse 500 "Internal server error" e], r.1, .thrown e⟩

/-- The context built by variant-2 `execute` (README lines 455-459):
`\x7b ...this.context, request, response \x7d`. -/
def Core2.callContext (glob : Ctx) : Ctx :=
  mergeObj glob [("request", CVal.reqHandle), ("response", CVal.respHandle)]

/-- Observable behaviour of variant-2 `execute`: the chain trace and the
result (`.error` = an exception propagating to the caller). -/
structure ExecOut2 where
  trace : List Ev
  outcome : Except String JVal

/-- Variant-2 `RPC.execute` (README lines 446-480): no try/catch anywhere —
a validation failure or chain exception propagates to the caller; otherwise
the chain result is returned unchanged. -/
def Core2.execute (glob : Ctx) (p : Procedure) (input : JVal) (hs : Handles) : ExecOut2 :=
  match validateStage p input with
  | .error e => ⟨[], .error e⟩
  | .ok vi =>
    let r := runChain p.middleware p.handler ⟨vi, Core2.callContext glob, hs⟩
    ⟨r.1, r.2⟩

/-- An `RpcRequest` protobuf message on the wire: both fields optional
(proto3 fields may be absent). -/
structure PbWire where
  procedure : Option String
  input : Option String

/-- An `RpcRequest` after `RpcRequest.toObject(msg, \x7bdefaults: true\x7d)`:
absent string fields decode as `""`. -/
structure PbRequestObj where
  procedure : String
  input : String

/-- Protobuf decode + `toObject` with defaults. -/
def pbToObject (w : PbWire) : PbRequestObj :=
  ⟨w.procedure.getD "", w.input.getD ""⟩

/-- The decoded call body handed to the transport's dispatch stage.  The
`procedure` field is kept at type `JVal` so the transport's
`typeof body.procedure !== "string"` check can be stated in general, even
though the protobuf decoder only ever produces strings there. -/
structure Body where
  procedure : JVal
  input : JVal

/-- `deserializeProtobuf` (http.ts lines 28-43): decode the `RpcRequest`
message, then `if (decodedObject.input && typeof decodedObject.input ===
"string") decodedObject.input = JSON.parse(decodedObject.input)`.  A
`JSON.parse` failure is caught and re-thrown as a `Protobuf parse error`. -/
def deserializeProtobuf (w : PbWire) : Except String Body :=
  let d := pbToObject w
  if d.input = "" then
    .ok ⟨.str d.procedure, .str d.input⟩
  else
    match jsonParse d.input with
    | some v => .ok ⟨.str d.procedure, v⟩
    | none => .error "Protobuf parse error: Unknown error"

/-- The single accepted content type of the protobuf transport. -/
def pbCT : String := "application/x-protobuf"

/-- 405 fast-fail: `res.end("Method Not Allowed")`, no content-type set. -/
def methodNotAllowedSend : Send := ⟨405, none, .raw "Method Not Allowed"⟩

/-- 415 fast-fail envelope (http.ts lines 66-72). -/
def unsupportedMediaSend : Send :=
  ⟨415, some pbCT, .pb "" "Unsupported Media Type: Expected application/x-protobuf"⟩

/-- 400 bad-name envelope (http.ts lines 85-91). -/
def badNameSend : Send :=
  ⟨400, some pbCT, .pb "" "Bad Request: Missing or invalid procedure name"⟩

/-- 404 unknown-procedure envelope (http.ts lines 96-102). -/
def notFoundSend : Send := ⟨404, some pbCT, .pb "" "Not Found: Procedure not found"⟩

/-- Encoding of a successful result into the envelope's `result` field
(http.ts line 109): `typeof result === "string" ? result :
JSON.stringify(result)`. -/
def encodeResultField : JVal → String
  | .str s => s
  | v => jsonStringify v

/-- The message of the `TypeError` thrown when `execute` is handed an
inherited `Object.prototype` member instead of a Procedure:
`procedure.validateInput` is `undefined` (validation skipped) and the
chain's first `next()` evaluates `procedure.middleware.length` on
`undefined`. -/
def protoTypeError : String := "Cannot read properties of undefined (reading 'length')"

/-- The message of the `ERR_HTTP_HEADERS_SENT` error `res.setHeader`
throws once the response has already been ended. -/
def headersSentMsg : String := "Cannot set headers after they are sent to the client"

/-- What one invocation of the request handler did: the response writes in
order, `console.error` logs, an exception escaping the handler (`none`
always, since the catch block swallows it), the input value passed to
`execute` (`none` when `execute` was never invoked) and the engine's chain
trace. -/
structure AdapterOut where
  sends : List Send
  logs : List String
  raised : Option String
  execInput : Option JVal
  execTrace : List Ev

/-- An inbound HTTP request as the adapter sees it: method, declared
content-type (`req.headers["content-type"] || ""`), and the protobuf
message carried by the buffered body. -/
structure HttpRequest where
  method : String
  contentType : String
  body : PbWire

/-- The post-decode stages of `handleAllHttp` (http.ts lines 84-125) with
variant-2 `execute`: name check, prototype-aware router lookup,
falsy-input coercion (`body.input || \x7b\x7d`), dispatch, encode.  A lookup
hitting an inherited `Object.prototype` member is truthy, so the 404
branch is skipped and `execute` is invoked with the non-Procedure value:
validation is skipped (`validateInput` is `undefined`) and the chain
throws a `TypeError` reading `.length` of `undefined`, which the catch
translates to a 500 envelope.  An exception from `execute` is caught,
logged, and answered with a 500 envelope — not re-thrown (the response
had not been written yet, so the catch's own header write succeeds). -/
def dispatchBody2 (glob : Ctx) (appRouter : List (String × Procedure)) (body : Body)
    (hs : Handles) : AdapterOut :=
  match body.procedure with
  | .str pname =>
    match routerGet appRouter pname with
    | .missing => ⟨[notFoundSend], [], none, none, []⟩
    | .inherited _ =>
      let arg := if jsFalsy body.input then JVal.obj [] else body.input
      ⟨[⟨500, some pbCT, .pb "" protoTypeError⟩], [protoTypeError], none, some arg, []⟩
    | .proc p =>
      let arg := if jsFalsy body.input then JVal.obj [] else body.input
      let r := Core2.execute glob p arg hs
      match r.outcome with
      | .ok v => ⟨[⟨200, some pbCT, .pb (encodeResultField v) ""⟩], [], none, some arg, r.trace⟩
      | .error e => ⟨[⟨500, some pbCT, .pb "" e⟩], [e], none, some arg, r.trace⟩
  | _ => ⟨[badNameSend], [], none, none, []⟩

/-- The post-decode stages of `handleAllHttp` with variant-1 `execute`.
When the engine has already written (and ended) the response itself, the
adapter's subsequent `res.setHeader` (http.ts line 115 on the return path,
line 123 inside the catch) throws `ERR_HTTP_HEADERS_SENT`: no second body
write occurs; on the return path the headers-sent error is what the catch
logs, and in both paths the catch's own `setHeader` throws again, so a
headers-sent error escapes the handler (`raised`).  Only when the engine
wrote nothing does the adapter complete its 200 (or, for an exception
with an unwritten response, 500) envelope write.  An inherited-member
lookup hit reaches variant-1 `execute`, whose chain `TypeError` is caught
by the engine (500 JSON write, re-throw), after which the adapter's catch
logs it and its `setHeader` throws. -/
def dispatchBody1 (glob : Ctx) (appRouter : List (String × Procedure)) (body : Body)
    (hs : Handles) : AdapterOut :=
  match body.procedure with
  | .str pname =>
    match routerGet appRouter pname with
    | .missing => ⟨[notFoundSend], [], none, none, []⟩
    | .inherited _ =>
      let arg := if jsFalsy body.input then JVal.obj [] else body.input
      ⟨[sendErrorResponse 500 "Internal server error" protoTypeError],
        [protoTypeError], some headersSentMsg, some arg, []⟩
    | .proc p =>
      let arg := if jsFalsy body.input then JVal.obj [] else body.input
      let r := Core1.execute glob p arg hs
      match r.outcome with
      | .ret v =>
        match r.sends with
        | [] =>
          let rstr := match v with
            | some (.str s) => s
            | some w => jsonStringify w
            | none => ""
          ⟨[⟨200, some pbCT, .pb rstr ""⟩], [], none, some arg, r.trace⟩
        | _ => ⟨r.sends, [headersSentMsg], some headersSentMsg, some arg, r.trace⟩
      | .thrown e =>
        match r.sends with
        | [] => ⟨[⟨500, some pbCT, .pb "" e⟩], [e], none, some arg, r.trace⟩
        | _ => ⟨r.sends, [e], some headersSentMsg, some arg, r.trace⟩
  | _ => ⟨[badNameSend], [], none, none, []⟩

/-- `handleAllHttp` (http.ts lines 53-128) with variant-2 `execute`:
method check, content-type check (`contentType.includes("application/x-protobuf")`),
body decode (a decode exception is caught, logged, answered 500), then
dispatch. -/
def handleAllHttp2 (glob : Ctx) (appRouter : List (String × Procedure))
    (req : HttpRequest) (hs : Handles) : AdapterOut :=
  if req.method = "POST" then
    if strHasSub req.contentType pbCT then
      match deserializeProtobuf req.body with
      | .error e => ⟨[⟨500, some pbCT, .pb "" e⟩], [e], none, none, []⟩
      | .ok body => dispatchBody2 glob appRouter body hs
    else ⟨[unsupportedMediaSend], [], none, none, []⟩
  else ⟨[methodNotAllowedSend], [], none, none, []⟩

/-- `handleAllHttp` with variant-1 `execute`. -/
def handleAllHttp1 (glob : Ctx) (appRouter : List (String × Procedure))
    (req : HttpRequest) (hs : Handles) : AdapterOut :=
  if req.method = "POST" then
    if strHasSub req.contentType pbCT then
      match deserializeProtobuf req.body with
      | .error e => ⟨[⟨500, some pbCT, .pb "" e⟩], [e], none, none, []⟩
      | .ok body => dispatchBody1 glob appRouter body hs
    else ⟨[unsupportedMediaSend], [], none, none, []⟩
  else ⟨[methodNotAllowedSend], [], none, none, []⟩

/-- An `RpcResponse` after `toObject` with defaults on the client side. -/
structure PbResponseObj where
  result : String
  error : String

/-- The client's handling of a decoded response envelope
(packages/client/src/index.ts lines 109-122): a truthy `error` field
throws `RPC Error: ...`; otherwise `JSON.parse(result)` is returned,
falling back to the raw `result` string when parsing throws. -/
def clientDecodeResult (env : PbResponseObj) : Except String JVal :=
  if env.error = "" then
    match jsonParse env.result with
    | some v => .ok v
    | none => .ok (.str env.result)
  else .error ("RPC Error: " ++ env.error)

/-- The client's handling of a response given its HTTP status
(index.ts lines 94-122): a non-2xx status throws `HTTP Error` before the
envelope is consulted. -/
def clientHandleResponse (status : Nat) (env : PbResponseObj) : Except String JVal :=
  if status < 200 ∨ 300 ≤ status then .error "HTTP Error"
  else clientDecodeResult env

/-- Default call handles for concrete scenarios. -/
def h0 : Handles := ⟨0, 0⟩

/-- The `greet` validator from the README example: `input.name` must be a
string, otherwise throw `Invalid name`. -/
def greetValidator : JVal → Except String JVal := fun v =>
  match v with
  | .obj fs =>
    match List.lookup "name" fs with
    | some (.str _) => .ok v
    | _ => .error "Invalid name"
  | _ => .error "Invalid name"

/-- The `greet` handler: returns `"Hello, $\x7bname\x7d!"`. -/
def greetHandler : Opts → Except String JVal := fun o =>
  match o.input with
  | .obj fs =>
    match List.lookup "name" fs with
    | some (.str n) => .ok (.str ("Hello, " ++ n ++ "!"))
    | _ => .error "Invalid name"
  | _ => .error "Invalid name"

/-- `greet` procedure, built with the validated builder path. -/
def greetProc : Procedure := RPC.procedureInputUse greetValidator greetHandler

/-- The `add` validator from the README example: `input.a` and `input.b`
must be numbers. -/
def addValidator : JVal → Except String JVal := fun v =>
  match v with
  | .obj fs =>
    match List.lookup "a" fs, List.lookup "b" fs with
    | some (.num _), some (.num _) => .ok v
    | _, _ => .error "Inputs a and b must be numbers"
  | _ => .error "Inputs a and b must be numbers"

/-- The `add` handler: returns `input.a + input.b`. -/
def addHandler : Opts → Except String JVal := fun o =>
  match o.input with
  | .obj fs =>
    match List.lookup "a" fs, List.lookup "b" fs with
    | some (.num a), some (.num b) => .ok (.num (a + b))
    | _, _ => .error "Inputs a and b must be numbers"
  | _ => .error "Inputs a and b must be numbers"

/-- `add` procedure, built with the validated builder path. -/
def addProc : Procedure := RPC.procedureInputUse addValidator addHandler

/-- A handler that always throws. -/
def boomHandler : Opts → Except String JVal := fun _ => .error "boom failed"

/-- A validator-less procedure whose handler always throws. -/
def boomProc : Procedure := RPC.procedureUse boomHandler

/-- A validator-less procedure whose handler returns `"pong"`. -/
def pingProc : Procedure := RPC.procedureUse (fun _ => .ok (.str "pong"))

/-- Router registering `greet`. -/
def demoRouter : List (String × Procedure) := RPC.router [("greet", greetProc)]

/-- Router registering `add`. -/
def addRouter : List (String × Procedure) := RPC.router [("add", addProc)]

/-- Router registering `boom`. -/
def boomRouter : List (String × Procedure) := RPC.router [("boom", boomProc)]

/-- Router whose sole registered name is the empty string. -/
def emptyNameRouter : List (String × Procedure) := RPC.router [("", pingProc)]

/-- Scenario B request: `greet` called with `\x7b\x7d`. -/
def reqB : HttpRequest := ⟨"POST", pbCT, ⟨some "greet", some "\x7b\x7d"⟩⟩

/-- Scenario D request: `add` called with `\x7b"a":2,"b":3\x7d`. -/
def reqD : HttpRequest := ⟨"POST", pbCT, ⟨some "add", some "\x7b\"a\":2,\"b\":3\x7d"⟩⟩

/-- A call to the throwing procedure. -/
def reqBoom : HttpRequest := ⟨"POST", pbCT, ⟨some "boom", some "1"⟩⟩

/-- A call envelope with the `procedure` field absent from the wire. -/
def reqNoName : HttpRequest := ⟨"POST", pbCT, ⟨none, none⟩⟩

/-- A call to `GREET` (wrong case) with valid input. -/
def reqWrongCase : HttpRequest := ⟨"POST", pbCT, ⟨some "GREET", some "\x7b\"name\":\"Ada\"\x7d"⟩⟩

/-- A call to `greet` whose inner input is the falsy value `0`. -/
def reqFalsy : HttpRequest := ⟨"POST", pbCT, ⟨some "greet", some "0"⟩⟩

/-- A call to the unregistered name `toString`, which every plain object
inherits from `Object.prototype`. -/
def reqToString : HttpRequest := ⟨"POST", pbCT, ⟨some "toString", some "1"⟩⟩

/-! ## Helper lemmas -/

theorem lookup_append {β : Type} (k : String) (xs ys : List (String × β)) :
    List.lookup k (xs ++ ys) = pick (List.lookup k xs) (List.lookup k ys) := by
  induction xs with
  | nil => simp [List.lookup, pick]
  | cons p t ih =>
    obtain ⟨a, b⟩ := p
    cases hk : (k == a) with
    | true => simp [List.lookup, hk, pick]
    | false => simp [List.lookup, hk, ih]

theorem lookup_mapOverride (k : String) (a b : Ctx) :
    List.lookup k (a.map (fun p => match List.lookup p.1 b with
        | some v => (p.1, v) | none => p)) =
      match List.lookup k a with
      | some _ => pick (List.lookup k b) (List.lookup k a)
      | none => none := by
  induction a with
  | nil => simp [List.lookup]
  | cons p t ih =>
    obtain ⟨x, w⟩ := p
    cases hk : (k == x) with
    | true =>
      have hkx : k = x := eq_of_beq hk
      subst hkx
      cases hb : List.lookup k b with
      | none => simp [List.lookup, hb, hk, pick]
      | some v => simp [List.lookup, hb, hk, pick]
    | false =>
      cases hb : List.lookup x b with
      | none => simpa [List.lookup, hb, hk] using ih
      | some v => simpa [List.lookup, hb, hk] using ih

theorem lookup_filterNew (k : String) (a b : Ctx) :
    List.lookup k (b.filter (fun q => (List.lookup q.1 a).isNone)) =
      match List.lookup k a with
      | some _ => none
      | none => List.lookup k b := by
  induction b with
  | nil => cases List.lookup k a <;> simp [List.lookup]
  | cons p t ih =>
    obtain ⟨x, w⟩ := p
    cases hk : (k == x) with
    | true =>
      have hkx : k = x := eq_of_beq hk
      subst hkx
      cases ha : List.lookup k a with
      | none => simp [List.filter, List.lookup, ha, hk]
      | some v => simpa [List.filter, List.lookup, ha, hk] using ih
    | false =>
      cases ha : List.lookup x a with
      | none => simp [List.filter, List.lookup, ha, hk, ih]
      | some v => simp [List.filter, List.lookup, ha, hk, ih]

theorem lookup_mergeObj (k : String) (a b : Ctx) :
    List.lookup k (mergeObj a b) = pick (List.lookup k b) (List.lookup k a) := by
  rw [mergeObj, lookup_append, lookup_mapOverride, lookup_filterNew]
  cases ha : List.lookup k a with
  | none => cases List.lookup k b <;> simp [pick]
  | some v => cases List.lookup k b <;> simp [pick]

theorem mergeObj_nil (a : Ctx) : mergeObj a [] = a := by
  simp [mergeObj, List.lookup]

theorem runChainFrom_wrap_trace (fs : List (Opts → JVal → Except String JVal))
    (h : Opts → Except String JVal) (opts : Opts) (i : Nat) :
    (runChainFrom h opts (fs.map Mw.wrap) i).1
      = (List.range' i fs.length).map Ev.mw ++ [Ev.handlerRun] := by
  induction fs generalizing i with
  | nil => simp [runChainFrom]
  | cons f t ih => simp [runChainFrom, List.range'_succ, ih]

theorem runChainFrom_pass_result (n : Nat) (h : Opts → Except String JVal)
    (opts : Opts) (i : Nat) :
    (runChainFrom h opts (List.replicate n Mw.pass) i).2 = h opts := by
  induction n generalizing i with
  | zero => simp [runChainFrom]
  | succ m ih =>
    simp only [Mw.pass] at ih ⊢
    simp only [List.replicate_succ, runChainFrom]
    rw [ih (i + 1)]
    cases h opts <;> rfl

theorem runChainFrom_stop_trace (fs : List (Opts → JVal → Except String JVal))
    (g : Opts → Except String JVal) (rest : List Mw)
    (h : Opts → Except String JVal) (opts : Opts) (i : Nat) :
    (runChainFrom h opts (fs.map Mw.wrap ++ Mw.stop g :: rest) i).1
      = (List.range' i (fs.length + 1)).map Ev.mw := by
  induction fs generalizing i with
  | nil => simp [runChainFrom, List.range'_succ]
  | cons f t ih => simp [runChainFrom, List.range'_succ, ih]

theorem runChainFrom_stop_result (n : Nat) (g : Opts → Except String JVal)
    (rest : List Mw) (h : Opts → Except String JVal) (opts : Opts) (i : Nat) :
    (runChainFrom h opts (List.replicate n Mw.pass ++ Mw.stop g :: rest) i).2 = g opts := by
  induction n generalizing i with
  | zero => simp [runChainFrom]
  | succ m ih =>
    simp only [Mw.pass] at ih ⊢
    simp only [List.replicate_succ, List.cons_append, runChainFrom, List.append_eq]
    rw [ih (i + 1)]
    cases g opts <;> rfl

theorem lookup_isSome_mem_keys (k : String) (ps : List (String × Procedure)) :
    (List.lookup k ps).isSome = true → k ∈ ps.map Prod.fst := by
  induction ps with
  | nil => simp [List.lookup]
  | cons p t ih =>
    obtain ⟨a, b⟩ := p
    cases hk : (k == a) with
    | true => intro _; simp [eq_of_beq hk]
    | false =>
      intro hs
      simp only [List.lookup, hk] at hs
      simpa using Or.inr (ih hs)

/-- Does a response body carry an `error` field?  For a raw JSON text body:
the text parses as an object with an `error` key; for a protobuf envelope:
the `error` field is non-empty. -/
def respBodyHasErrorField : RespBody → Bool
  | .raw s =>
    match jsonParse s with
    | some (.obj fs) => (List.lookup "error" fs).isSome
    | _ => false
  | .pb _ e => !(e == "")

/-! ## Claims -/

/-- Claim C3: the execution engine's middleware chain invokes each
registered middleware entry exactly once, in registration order, with the
`next()` continuation advancing an index cursor; when the list is exhausted
the terminal handler runs and its return value is the call's Result, and a
middleware that returns without calling `next()` prevents all later stages
and the handler from ever running.  Formally: (1) a chain of `n`
continue-style middleware produces exactly the trace `mw 0, …, mw (n-1),
handlerRun`; (2) with pass-through middleware the result is the handler's
return value; (3) a chain whose entry `k` short-circuits produces exactly
the trace `mw 0, …, mw k` — no later stage and no handler event; (4) the
short-circuiting middleware's own value is the call's result. -/
theorem c3_middleware_chain_order
    (fs : List (Opts → JVal → Except String JVal))
    (g h : Opts → Except String JVal) (rest : List Mw) (opts : Opts) (n : Nat) :
    (runChain (fs.map Mw.wrap) h opts).1
        = (List.range fs.length).map Ev.mw ++ [Ev.handlerRun]
  ∧ (runChain (List.replicate n Mw.pass) h opts).2 = h opts
  ∧ (runChain (fs.map Mw.wrap ++ Mw.stop g :: rest) h opts).1
        = (List.range (fs.length + 1)).map Ev.mw
  ∧ (runChain (List.replicate n Mw.pass ++ Mw.stop g :: rest) h opts).2 = g opts := by
  refine ⟨?_, ?_, ?_, ?_⟩
  · rw [runChain, runChainFrom_wrap_trace, List.range_eq_range']
  · exact runChainFrom_pass_result n h opts 0
  · rw [runChain, runChainFrom_stop_trace, List.range_eq_range']
  · exact runChainFrom_stop_result n g rest h opts 0

/-- Claim C4: `mergeContexts` produces the shallow merge of the global
context with the per-call derivation's result, per-call keys winning on
collision (lookup in the merge consults the derivation's result first);
with no derivation function supplied the result is a shallow copy of the
global context. -/
theorem c4_mergeContexts_per_call_wins
    (g : Ctx) (d : Handles → Option Ctx) (hs : Handles) (k : String) :
    List.lookup k (RPC.mergeContexts g (some d) hs)
        = pick (List.lookup k ((d hs).getD [])) (List.lookup k g)
  ∧ RPC.mergeContexts g none hs = g := by
  constructor
  · rw [RPC.mergeContexts]
    exact lookup_mergeObj k g _
  · rw [RPC.mergeContexts]
    exact mergeObj_nil g

/-- Counterexample to C7 as stated: the unregistered name `toString` is an
inherited `Object.prototype` member of the plain router object, so
`appRouter["toString"]` is truthy: the 404 branch is skipped, `execute` IS
invoked (with `Object.prototype.toString` in place of a Procedure), and
the call is answered with status 500 — not 404. -/
theorem c7_counterexample :
    List.lookup "toString" demoRouter = none
  ∧ (handleAllHttp2 [] demoRouter reqToString h0).sends.map Send.status = [500]
  ∧ ¬ ((handleAllHttp2 [] demoRouter reqToString h0).sends.map Send.status = [404])
  ∧ (handleAllHttp2 [] demoRouter reqToString h0).execInput = some (JVal.num 1) := by
  refine ⟨rfl, rfl, ?_, rfl⟩
  intro hcon
  have h1 : (handleAllHttp2 [] demoRouter reqToString h0).sends.map Send.status
      = [500] := rfl
  rw [h1] at hcon
  exact absurd hcon (by decide)

/-- Claim C7 (amended): a procedure name that is neither registered nor an
inherited `Object.prototype` member yields `undefined`, the adapter
responds with the 404 envelope, and `execute` is never invoked
(`execInput = none`, empty trace); lookup yields a registered Procedure
only on an exact, case-sensitive match with a registered name; but an
unregistered name of an inherited `Object.prototype` member (`toString`,
`constructor`, …) yields a truthy non-Procedure value, passes the
`!procedure` check, and `execute` IS invoked with it, failing with a
`TypeError` that the adapter translates into a 500 envelope. -/
theorem c7_amended_router_lookup
    (glob : Ctx) (ps : List (String × Procedure)) (req : HttpRequest) (hs : Handles)
    (pname : String) (inp : JVal)
    (hm : req.method = "POST")
    (hct : strHasSub req.contentType pbCT = true)
    (hdec : deserializeProtobuf req.body = .ok ⟨.str pname, inp⟩) :
    (List.lookup pname (RPC.router ps) = none → pname ∉ objectProtoKeys →
        handleAllHttp2 glob (RPC.router ps) req hs = ⟨[notFoundSend], [], none, none, []⟩)
  ∧ ((List.lookup pname (RPC.router ps)).isSome = true → pname ∈ ps.map Prod.fst)
  ∧ (List.lookup pname (RPC.router ps) = none → pname ∈ objectProtoKeys →
        (handleAllHttp2 glob (RPC.router ps) req hs).sends
            = [⟨500, some pbCT, .pb "" protoTypeError⟩]
      ∧ (handleAllHttp2 glob (RPC.router ps) req hs).execInput
            = some (if jsFalsy inp then JVal.obj [] else inp)) := by
  refine ⟨?_, lookup_isSome_mem_keys pname ps, ?_⟩
  · intro hlk hnp
    rw [RPC.router] at hlk
    simp [handleAllHttp2, hm, hct, hdec, dispatchBody2, RPC.router, routerGet, hlk, hnp]
  · intro hlk hp
    rw [RPC.router] at hlk
    constructor <;>
      simp [handleAllHttp2, hm, hct, hdec, dispatchBody2, RPC.router, routerGet, hlk, hp]

/-- Witness for C7 (amended): against a router registering only `greet`,
the case-differing unregistered name `GREET` (not an inherited member)
gets the 404 envelope with the engine never invoked, while the
unregistered inherited name `toString` gets the 500 `TypeError`
envelope. -/
theorem c7_witness :
    handleAllHttp2 [] (RPC.router [("greet", greetProc)]) reqWrongCase h0
        = ⟨[notFoundSend], [], none, none, []⟩
  ∧ (handleAllHttp2 [] (RPC.router [("greet", greetProc)]) reqToString h0).sends
        = [⟨500, some pbCT, RespBody.pb "" protoTypeError⟩] :=
  ⟨(c7_amended_router_lookup [] [("greet", greetProc)] reqWrongCase h0 "GREET"
      (JVal.obj [("name", JVal.str "Ada")]) rfl rfl rfl).1 rfl (by decide),
   ((c7_amended_router_lookup [] [("greet", greetProc)] reqToString h0 "toString"
      (JVal.num 1) rfl rfl rfl).2.2 rfl (by decide)).1⟩

/-- Claim C9: the transport substitutes `\x7b\x7d` for every falsy decoded
input value (`body.input || \x7b\x7d`) before invoking `execute`, so the value
handed to a procedure's validator/handler is never falsy. -/
theorem c9_falsy_input_coerced
    (glob : Ctx) (r : List (String × Procedure)) (req : HttpRequest) (hs : Handles)
    (pname : String) (inp : JVal) (p : Procedure)
    (hm : req.method = "POST")
    (hct : strHasSub req.contentType pbCT = true)
    (hdec : deserializeProtobuf req.body = .ok ⟨.str pname, inp⟩)
    (hlk : List.lookup pname r = some p) :
    (handleAllHttp2 glob r req hs).execInput
        = some (if jsFalsy inp then JVal.obj [] else inp)
  ∧ (jsFalsy inp = true → (handleAllHttp2 glob r req hs).execInput = some (JVal.obj []))
  ∧ (∀ v, (handleAllHttp2 glob r req hs).execInput = some v → jsFalsy v = false) := by
  have hmain : (handleAllHttp2 glob r req hs).execInput
      = some (if jsFalsy inp then JVal.obj [] else inp) := by
    simp only [handleAllHttp2, hm, hct, if_true, hdec, dispatchBody2, routerGet, hlk]
    cases (Core2.execute glob p (if jsFalsy inp then JVal.obj [] else inp) hs).outcome <;> rfl
  refine ⟨hmain, ?_, ?_⟩
  · intro hfal
    rw [hmain, if_pos hfal]
  · intro v hv
    rw [hmain] at hv
    cases hf : jsFalsy inp with
    | true => rw [if_pos hf] at hv; cases hv; rfl
    | false => rw [if_neg (by simp [hf])] at hv; cases hv; exact hf

/-- Witness for C9: a call whose decoded inner input is the falsy value `0`
reaches `execute` with input `\x7b\x7d`. -/
theorem c9_witness :
    (handleAllHttp2 [] demoRouter reqFalsy h0).execInput = some (JVal.obj []) :=
  (c9_falsy_input_coerced [] demoRouter reqFalsy h0 "greet" (JVal.num 0) greetProc
      rfl rfl rfl rfl).2.1 rfl

/-- Claim C2: for a validated procedure and input the validator accepts,
the call's result is the handler's return value unchanged; the binary
transport then responds with status 200 and a `result` field that is the
JSON encoding of the value when it is not a string, or the value itself
when it is a string. -/
theorem c2_validated_call_result
    (glob : Ctx) (r : List (String × Procedure)) (req : HttpRequest) (hs : Handles)
    (pname : String) (inp : JVal) (vf : JVal → Except String JVal)
    (uh : Opts → Except String JVal) (vi : JVal)
    (hm : req.method = "POST")
    (hct : strHasSub req.contentType pbCT = true)
    (hdec : deserializeProtobuf req.body = .ok ⟨.str pname, inp⟩)
    (hlk : List.lookup pname r = some (RPC.procedureInputUse vf uh))
    (hacc : vf (if jsFalsy inp then JVal.obj [] else inp) = .ok vi) :
    (Core2.execute glob (RPC.procedureInputUse vf uh)
        (if jsFalsy inp then JVal.obj [] else inp) hs).outcome
      = uh ⟨vi, Core2.callContext glob, hs⟩
  ∧ (∀ v, uh ⟨vi, Core2.callContext glob, hs⟩ = .ok v →
        (handleAllHttp2 glob r req hs).sends
          = [⟨200, some pbCT, .pb (encodeResultField v) ""⟩])
  ∧ (∀ s, encodeResultField (JVal.str s) = s)
  ∧ (∀ w, (∀ s, w ≠ JVal.str s) → encodeResultField w = jsonStringify w) := by
  refine ⟨?_, ?_, fun _ => rfl, ?_⟩
  · simp [Core2.execute, validateStage, RPC.procedureInputUse, hacc, runChain, runChainFrom]
  · intro v hv
    simp [handleAllHttp2, hm, hct, hdec, dispatchBody2, routerGet, hlk, Core2.execute,
      validateStage, RPC.procedureInputUse, hacc, runChain, runChainFrom, hv]
  · intro w hw
    cases w with
    | str s => exact absurd rfl (hw s)
    | null => rfl
    | bool b => rfl
    | num n => rfl
    | arr xs => rfl
    | obj fs => rfl

/-- Witness for C2 (Scenario D): the binary call envelope
`\x7bprocedure:"add", input:"\x7b\"a\":2,\"b\":3\x7d"\x7d` makes the handler return `5` and
the response is status 200 with `result` equal to `"5"`, the text encoding
of `5`. -/
theorem c2_witness :
    (handleAllHttp2 [] addRouter reqD h0).sends = [⟨200, some pbCT, .pb "5" ""⟩] :=
  (c2_validated_call_result [] addRouter reqD h0 "add"
      (JVal.obj [("a", JVal.num 2), ("b", JVal.num 3)]) addValidator addHandler
      (JVal.obj [("a", JVal.num 2), ("b", JVal.num 3)])
      rfl rfl rfl rfl rfl).2.1 (JVal.num 5) rfl

/-- Counterexample to C1 as stated: calling `greet` with `\x7b\x7d` (Scenario B),
variant-1 `execute` does NOT yield a ValidationError to the transport — its
outcome is a plain `undefined` return — and the status-400 error response is
written by the engine itself: the transport layer translates nothing (the
response list of the whole call equals the engine's own single write, and
the transport's post-`execute` code instead dies on a headers-already-sent
error that escapes the handler). -/
theorem c1_counterexample :
    (Core1.execute [] greetProc (JVal.obj []) h0).outcome = Outcome1.ret none
  ∧ (Core1.execute [] greetProc (JVal.obj []) h0).sends
      = [sendErrorResponse 400 "Invalid input" "Invalid name"]
  ∧ (handleAllHttp1 [] demoRouter reqB h0).sends
      = (Core1.execute [] greetProc (JVal.obj []) h0).sends
  ∧ (handleAllHttp1 [] demoRouter reqB h0).raised = some headersSentMsg :=
  ⟨rfl, rfl, rfl, rfl⟩

/-- Claim C1 (amended): for a validated procedure and input the validator
rejects, no middleware and no handler is invoked (empty chain trace); the
ENGINE itself (variant-1 `execute`) writes the single status-400
`application/json` response whose body is the JSON object with an `error`
field, and returns `undefined` rather than yielding a ValidationError; the
transport layer translates nothing — its own attempt to write a 200
envelope throws `ERR_HTTP_HEADERS_SENT` on the already-ended response,
which is logged and escapes the handler, so the engine's 400 is the
call's only response write. -/
theorem c1_amended_engine_writes_400
    (glob : Ctx) (r : List (String × Procedure)) (req : HttpRequest) (hs : Handles)
    (pname : String) (inp : JVal) (vf : JVal → Except String JVal)
    (uh : Opts → Except String JVal) (e : String)
    (hm : req.method = "POST")
    (hct : strHasSub req.contentType pbCT = true)
    (hdec : deserializeProtobuf req.body = .ok ⟨.str pname, inp⟩)
    (hlk : List.lookup pname r = some (RPC.procedureInputUse vf uh))
    (hrej : vf (if jsFalsy inp then JVal.obj [] else inp) = .error e) :
    (Core1.execute glob (RPC.procedureInputUse vf uh)
        (if jsFalsy inp then JVal.obj [] else inp) hs).trace = []
  ∧ (Core1.execute glob (RPC.procedureInputUse vf uh)
        (if jsFalsy inp then JVal.obj [] else inp) hs).sends
      = [sendErrorResponse 400 "Invalid input" e]
  ∧ (Core1.execute glob (RPC.procedureInputUse vf uh)
        (if jsFalsy inp then JVal.obj [] else inp) hs).outcome = Outcome1.ret none
  ∧ (handleAllHttp1 glob r req hs).sends = [sendErrorResponse 400 "Invalid input" e]
  ∧ (handleAllHttp1 glob r req hs).logs = [headersSentMsg]
  ∧ (handleAllHttp1 glob r req hs).raised = some headersSentMsg
  ∧ (handleAllHttp1 glob r req hs).sends.head?.map Send.status = some 400 := by
  have hex : Core1.execute glob (RPC.procedureInputUse vf uh)
      (if jsFalsy inp then JVal.obj [] else inp) hs
      = ⟨[sendErrorResponse 400 "Invalid input" e], [], .ret none⟩ := by
    simp [Core1.execute, validateStage, RPC.procedureInputUse, hrej]
  have hall : handleAllHttp1 glob r req hs
      = ⟨[sendErrorResponse 400 "Invalid input" e], [headersSentMsg],
         some headersSentMsg, some (if jsFalsy inp then JVal.obj [] else inp), []⟩ := by
    simp [handleAllHttp1, hm, hct, hdec, dispatchBody1, routerGet, hlk, hex]
  refine ⟨by rw [hex], by rw [hex], by rw [hex], by rw [hall], by rw [hall],
    by rw [hall], by rw [hall]; rfl⟩

/-- Witness for C1 (amended), Scenario B: `greet` called with `\x7b\x7d` gives
exactly the engine-written 400 (whose body does contain an `error` field),
the headers-sent log and escaping error, and an empty chain trace. -/
theorem c1_witness :
    (handleAllHttp1 [] demoRouter reqB h0).sends
        = [sendErrorResponse 400 "Invalid input" "Invalid name"]
  ∧ respBodyHasErrorField (sendErrorResponse 400 "Invalid input" "Invalid name").body = true
  ∧ (handleAllHttp1 [] demoRouter reqB h0).raised = some headersSentMsg
  ∧ (Core1.execute [] greetProc (JVal.obj []) h0).trace = [] :=
  ⟨(c1_amended_engine_writes_400 [] demoRouter reqB h0 "greet" (JVal.obj [])
      greetValidator greetHandler "Invalid name" rfl rfl rfl rfl rfl).2.2.2.1,
   rfl,
   (c1_amended_engine_writes_400 [] demoRouter reqB h0 "greet" (JVal.obj [])
      greetValidator greetHandler "Invalid name" rfl rfl rfl rfl rfl).2.2.2.2.2.1,
   (c1_amended_engine_writes_400 [] demoRouter reqB h0 "greet" (JVal.obj [])
      greetValidator greetHandler "Invalid name" rfl rfl rfl rfl rfl).1⟩

/-- Counterexample to C5 as stated: a call that passes the method,
content-type, name and lookup checks but whose handler throws returns HTTP
status 500, not 200. -/
theorem c5_counterexample :
    reqBoom.method = "POST"
  ∧ strHasSub reqBoom.contentType pbCT = true
  ∧ (List.lookup "boom" boomRouter).isSome = true
  ∧ (handleAllHttp2 [] boomRouter reqBoom h0).sends.map Send.status = [500]
  ∧ ¬ (handleAllHttp2 [] boomRouter reqBoom h0).sends.map Send.status = [200] := by
  refine ⟨rfl, rfl, rfl, rfl, ?_⟩
  intro hcon
  have h1 : (handleAllHttp2 [] boomRouter reqBoom h0).sends.map Send.status = [500] := rfl
  rw [h1] at hcon
  exact absurd hcon (by decide)

/-- Claim C5 (amended): in the binary deployment a call that passes the
method, content-type, name and lookup checks returns status 200 only when
`execute` resolves; when the handler or a middleware throws, the adapter
responds with status 500, the error text carried in the envelope's `error`
field (still with the binary content type). -/
theorem c5_amended_status_by_outcome
    (glob : Ctx) (r : List (String × Procedure)) (req : HttpRequest) (hs : Handles)
    (pname : String) (inp : JVal) (p : Procedure)
    (hm : req.method = "POST")
    (hct : strHasSub req.contentType pbCT = true)
    (hdec : deserializeProtobuf req.body = .ok ⟨.str pname, inp⟩)
    (hlk : List.lookup pname r = some p) :
    (∀ v, (Core2.execute glob p (if jsFalsy inp then JVal.obj [] else inp) hs).outcome
          = .ok v →
        (handleAllHttp2 glob r req hs).sends
          = [⟨200, some pbCT, .pb (encodeResultField v) ""⟩])
  ∧ (∀ e, (Core2.execute glob p (if jsFalsy inp then JVal.obj [] else inp) hs).outcome
          = .error e →
        (handleAllHttp2 glob r req hs).sends = [⟨500, some pbCT, .pb "" e⟩]) := by
  constructor
  · intro v hv
    simp [handleAllHttp2, hm, hct, hdec, dispatchBody2, routerGet, hlk, hv]
  · intro e he
    simp [handleAllHttp2, hm, hct, hdec, dispatchBody2, routerGet, hlk, he]

/-- Witness for C5 (amended): the throwing `boom` procedure produces the
500 envelope carrying `boom failed`. -/
theorem c5_witness :
    (handleAllHttp2 [] boomRouter reqBoom h0).sends
      = [⟨500, some pbCT, .pb "" "boom failed"⟩] :=
  (c5_amended_status_by_outcome [] boomRouter reqBoom h0 "boom" (JVal.num 1) boomProc
      rfl rfl rfl rfl).2 "boom failed" rfl

/-- Counterexample to C6 as stated: a call envelope with the `procedure`
field absent from the wire decodes (with protobuf defaults) to the empty
string, passes the `typeof ... !== "string"` name check, undergoes router
lookup, and — against a router registering the empty name — is dispatched
and answered with status 200; it is neither answered with a 400-class error
nor kept from lookup/dispatch. -/
theorem c6_counterexample :
    reqNoName.body.procedure = none
  ∧ (handleAllHttp2 [] emptyNameRouter reqNoName h0).sends
      = [⟨200, some pbCT, .pb "pong" ""⟩]
  ∧ (handleAllHttp2 [] emptyNameRouter reqNoName h0).execInput = some (JVal.obj []) :=
  ⟨rfl, rfl, rfl⟩

/-- Claim C6 (amended): the 400 bad-name branch fires exactly on a
non-string `procedure` value, which the binary decoder can never produce:
protobuf decoding with defaults always yields a string `procedure` (an
absent field becomes `""`), so absent/empty names instead proceed to router
lookup (404 when the empty name is unregistered, dispatch when it is).
Formally: (1) `toObject` defaults the procedure field to `""`; (2) every
successfully decoded body has a string `procedure`; (3) a body with a
non-string `procedure` gets the 400 envelope with no lookup and no
dispatch; (4) an absent procedure field decodes to the name `""`. -/
theorem c6_amended_name_check
    (w : PbWire) (glob : Ctx) (r : List (String × Procedure)) (hs : Handles)
    (body b : Body) :
    ((pbToObject w).procedure = w.procedure.getD "")
  ∧ (deserializeProtobuf w = .ok b → ∃ s, b.procedure = JVal.str s)
  ∧ ((∀ s, body.procedure ≠ JVal.str s) →
        dispatchBody2 glob r body hs = ⟨[badNameSend], [], none, none, []⟩)
  ∧ (w.procedure = none → deserializeProtobuf w = .ok b → b.procedure = JVal.str "") := by
  refine ⟨rfl, ?_, ?_, ?_⟩
  · intro hb
    rw [deserializeProtobuf] at hb
    by_cases hin : (pbToObject w).input = ""
    · rw [if_pos hin] at hb
      cases hb
      exact ⟨_, rfl⟩
    · rw [if_neg hin] at hb
      cases hj : jsonParse (pbToObject w).input with
      | some v => rw [hj] at hb; cases hb; exact ⟨_, rfl⟩
      | none => rw [hj] at hb; cases hb
  · intro hns
    cases hbp : body.procedure with
    | str s => exact absurd hbp (hns s)
    | null => simp [dispatchBody2, hbp]
    | bool bv => simp [dispatchBody2, hbp]
    | num nv => simp [dispatchBody2, hbp]
    | arr xs => simp [dispatchBody2, hbp]
    | obj fs => simp [dispatchBody2, hbp]
  · intro hw hb
    have h2 : (pbToObject w).procedure = "" := by simp [pbToObject, hw]
    rw [deserializeProtobuf] at hb
    by_cases hin : (pbToObject w).input = ""
    · rw [if_pos hin] at hb
      cases hb
      rw [h2]
    · rw [if_neg hin] at hb
      cases hj : jsonParse (pbToObject w).input with
      | some v => rw [hj] at hb; cases hb; rw [h2]
      | none => rw [hj] at hb; cases hb

/-- Witness for C6 (amended): a body whose `procedure` is the number `3`
(unproducible by the decoder) does get the 400 bad-name envelope with no
lookup or dispatch. -/
theorem c6_witness :
    dispatchBody2 [] [] ⟨JVal.num 3, JVal.null⟩ h0 = ⟨[badNameSend], [], none, none, []⟩ :=
  (c6_amended_name_check ⟨none, none⟩ [] [] h0 ⟨JVal.num 3, JVal.null⟩
      ⟨JVal.str "", JVal.str ""⟩).2.2.1 (fun _ h => JVal.noConfusion h)

/-- Counterexample to C8 as stated: with a throwing handler, variant-1
`execute` writes its own 500 JSON response before re-throwing — so the
adapter is not the single translation point — and the original exception is
never re-raised to the adapter's invoker: under variant-2 the catch block
completes and nothing escapes (`raised = none`), while under variant-1 the
catch's own `setHeader` throws a headers-already-sent error, so what
escapes is that secondary error, not the original `boom failed`. -/
theorem c8_counterexample :
    (Core1.execute [] boomProc (JVal.num 1) h0).sends
        = [sendErrorResponse 500 "Internal server error" "boom failed"]
  ∧ (Core1.execute [] boomProc (JVal.num 1) h0).outcome = Outcome1.thrown "boom failed"
  ∧ (handleAllHttp2 [] boomRouter reqBoom h0).raised = none
  ∧ (handleAllHttp1 [] boomRouter reqBoom h0).raised = some headersSentMsg
  ∧ ¬ ((handleAllHttp1 [] boomRouter reqBoom h0).raised = some "boom failed") := by
  refine ⟨rfl, rfl, rfl, rfl, ?_⟩
  intro hcon
  have h1 : (handleAllHttp1 [] boomRouter reqBoom h0).raised
      = some headersSentMsg := rfl
  rw [h1] at hcon
  exact absurd hcon (by decide)

/-- Claim C8 (amended): a handler exception propagates out of variant-2
`execute` unmodified to the adapter, whose catch translates it into a 500
envelope carrying the message and logs it — but the exception is swallowed
there, not re-raised to the adapter's invoker; and variant-1 `execute`
additionally writes its own 500 JSON response before re-throwing, so the
adapter is not the single translation point under that variant. -/
theorem c8_amended_exception_translation
    (glob : Ctx) (r : List (String × Procedure)) (req : HttpRequest) (hs : Handles)
    (pname : String) (inp : JVal) (uh : Opts → Except String JVal) (e : String)
    (hm : req.method = "POST")
    (hct : strHasSub req.contentType pbCT = true)
    (hdec : deserializeProtobuf req.body = .ok ⟨.str pname, inp⟩)
    (hlk : List.lookup pname r = some (RPC.procedureUse uh))
    (hthrow2 : uh ⟨if jsFalsy inp then JVal.obj [] else inp,
        Core2.callContext glob, hs⟩ = .error e)
    (hthrow1 : uh ⟨if jsFalsy inp then JVal.obj [] else inp,
        RPC.mergeContexts glob (some (fun _ => some glob)) hs, hs⟩ = .error e) :
    (Core2.execute glob (RPC.procedureUse uh)
        (if jsFalsy inp then JVal.obj [] else inp) hs).outcome = .error e
  ∧ (handleAllHttp2 glob r req hs).sends = [⟨500, some pbCT, .pb "" e⟩]
  ∧ (handleAllHttp2 glob r req hs).logs = [e]
  ∧ (handleAllHttp2 glob r req hs).raised = none
  ∧ (Core1.execute glob (RPC.procedureUse uh)
        (if jsFalsy inp then JVal.obj [] else inp) hs).sends
      = [sendErrorResponse 500 "Internal server error" e]
  ∧ (Core1.execute glob (RPC.procedureUse uh)
        (if jsFalsy inp then JVal.obj [] else inp) hs).outcome = Outcome1.thrown e := by
  have hex2 : (Core2.execute glob (RPC.procedureUse uh)
      (if jsFalsy inp then JVal.obj [] else inp) hs).outcome = .error e := by
    simp [Core2.execute, validateStage, RPC.procedureUse, runChain, runChainFrom, hthrow2]
  refine ⟨hex2, ?_, ?_, ?_, ?_, ?_⟩
  · simp [handleAllHttp2, hm, hct, hdec, dispatchBody2, routerGet, hlk, hex2]
  · simp [handleAllHttp2, hm, hct, hdec, dispatchBody2, routerGet, hlk, hex2]
  · simp [handleAllHttp2, hm, hct, hdec, dispatchBody2, routerGet, hlk, hex2]
  · simp [Core1.execute, validateStage, RPC.procedureUse, runChain, runChainFrom, hthrow1]
  · simp [Core1.execute, validateStage, RPC.procedureUse, runChain, runChainFrom, hthrow1]

/-- Witness for C8 (amended): the throwing `boom` procedure yields the 500
envelope, the log entry, and no re-raise. -/
theorem c8_witness :
    (handleAllHttp2 [] boomRouter reqBoom h0).sends
        = [⟨500, some pbCT, .pb "" "boom failed"⟩]
  ∧ (handleAllHttp2 [] boomRouter reqBoom h0).logs = ["boom failed"]
  ∧ (handleAllHttp2 [] boomRouter reqBoom h0).raised = none :=
  ⟨(c8_amended_exception_translation [] boomRouter reqBoom h0 "boom" (JVal.num 1)
      boomHandler "boom failed" rfl rfl rfl rfl rfl rfl).2.1,
   (c8_amended_exception_translation [] boomRouter reqBoom h0 "boom" (JVal.num 1)
      boomHandler "boom failed" rfl rfl rfl rfl rfl rfl).2.2.1,
   (c8_amended_exception_translation [] boomRouter reqBoom h0 "boom" (JVal.num 1)
      boomHandler "boom failed" rfl rfl rfl rfl rfl rfl).2.2.2.1⟩

/-- Claim C10: on a successful binary-mode call the client JSON-parses the
envelope's `result` string and returns the parsed value, falling back to
the raw string only when parsing throws; hence for a string handler result
that is itself valid JSON (such as `"5"`, the server-side encoding of which
is the string itself) the client returns the parsed value, so the
server-encode/client-decode round trip is not the identity on string
results. -/
theorem c10_client_parses_result (r : String) :
    (∀ v, jsonParse r = some v → clientDecodeResult ⟨r, ""⟩ = .ok v)
  ∧ (jsonParse r = none → clientDecodeResult ⟨r, ""⟩ = .ok (JVal.str r))
  ∧ (∀ s w, jsonParse s = some w →
        clientDecodeResult ⟨encodeResultField (JVal.str s), ""⟩ = .ok w)
  ∧ (∀ env : PbResponseObj, clientHandleResponse 200 env = clientDecodeResult env)
  ∧ (clientDecodeResult ⟨encodeResultField (JVal.str "5"), ""⟩ = .ok (JVal.num 5)
      ∧ JVal.num 5 ≠ JVal.str "5") := by
  refine ⟨?_, ?_, ?_, ?_, rfl, fun h => JVal.noConfusion h⟩
  · intro v hv
    simp [clientDecodeResult, hv]
  · intro hn
    simp [clientDecodeResult, hn]
  · intro _ w hw
    simp [clientDecodeResult, encodeResultField, hw]
  · intro env
    simp [clientHandleResponse]

/-- Witness for C10: the result string `"5"` comes back from the client as
the number `5`. -/
theorem c10_witness :
    clientDecodeResult ⟨"5", ""⟩ = Except.ok (JVal.num 5) :=
  (c10_client_parses_result "5").1 (JVal.num 5) rfl

end OrchidRpc
